import Mathlib

/-!
Shallow embedding of the Solscanner wallet-tracker core.

Source of truth: src/solana_tracker.py (class WalletTracker), which consumes
payloads produced by src/api_client.py.  Python values flowing through the
tracker are modelled by the JSON-like type JVal below; Python floats are
modelled exactly by the rationals.  Fallible Python code (code that can raise)
is modelled with Except String; the string is a stand-in for the exception
message and carries no semantic weight.

Where a claim depends on behaviour the specification describes but that has no
counterpart under src/ (the position-delta state machine of spec section 4.3
and the balances-mode decimal normalization of spec section 4.1), the
corresponding definition is marked as modelled from the spec in its doc
comment.
-/

namespace Solscanner

/-! ## JSON-like values

Python dict/list/str/float/bool/None payloads.  A mutual inductive is used
(rather than nesting List) so that all functions below are compiled by
structural recursion and reduce definitionally, which concrete evaluations in
the theorems rely on. -/

mutual

inductive JVal where
  | jnull : JVal
  | jnum : ℚ → JVal
  | jstr : String → JVal
  | jbool : Bool → JVal
  | jarr : JArr → JVal
  | jobj : JObj → JVal

inductive JArr where
  | nil : JArr
  | cons : JVal → JArr → JArr

inductive JObj where
  | nil : JObj
  | cons : String → JVal → JObj → JObj

end

mutual

def JVal.beq : JVal → JVal → Bool
  | .jnull, .jnull => true
  | .jnum a, .jnum b => a == b
  | .jstr a, .jstr b => a == b
  | .jbool a, .jbool b => a == b
  | .jarr a, .jarr b => JArr.beq a b
  | .jobj a, .jobj b => JObj.beq a b
  | _, _ => false

def JArr.beq : JArr → JArr → Bool
  | .nil, .nil => true
  | .cons a as, .cons b bs => JVal.beq a b && JArr.beq as bs
  | _, _ => false

def JObj.beq : JObj → JObj → Bool
  | .nil, .nil => true
  | .cons k a as, .cons k' b bs => k == k' && JVal.beq a b && JObj.beq as bs
  | _, _ => false

end

mutual

theorem JVal.eq_of_beq : ∀ {a b : JVal}, JVal.beq a b = true → a = b
  | .jnull, .jnull, _ => rfl
  | .jnum a, .jnum b, h => by
      simp only [JVal.beq, beq_iff_eq] at h; exact congrArg JVal.jnum h
  | .jstr a, .jstr b, h => by
      simp only [JVal.beq, beq_iff_eq] at h; exact congrArg JVal.jstr h
  | .jbool a, .jbool b, h => by
      simp only [JVal.beq, beq_iff_eq] at h; exact congrArg JVal.jbool h
  | .jarr a, .jarr b, h => congrArg JVal.jarr (JArr.eq_of_beqArr h)
  | .jobj a, .jobj b, h => congrArg JVal.jobj (JObj.eq_of_beqObj h)

theorem JArr.eq_of_beqArr : ∀ {a b : JArr}, JArr.beq a b = true → a = b
  | .nil, .nil, _ => rfl
  | .cons a as, .cons b bs, h => by
      simp only [JArr.beq, Bool.and_eq_true] at h
      rw [JVal.eq_of_beq h.1, JArr.eq_of_beqArr h.2]

theorem JObj.eq_of_beqObj : ∀ {a b : JObj}, JObj.beq a b = true → a = b
  | .nil, .nil, _ => rfl
  | .cons k a as, .cons k' b bs, h => by
      simp only [JObj.beq, Bool.and_eq_true, beq_iff_eq] at h
      rw [h.1.1, JVal.eq_of_beq h.1.2, JObj.eq_of_beqObj h.2]

end

mutual

theorem JVal.beq_refl : ∀ a : JVal, JVal.beq a a = true
  | .jnull => rfl
  | .jnum a => by simp [JVal.beq]
  | .jstr a => by simp [JVal.beq]
  | .jbool a => by simp [JVal.beq]
  | .jarr a => JArr.beq_reflArr a
  | .jobj a => JObj.beq_reflObj a

theorem JArr.beq_reflArr : ∀ a : JArr, JArr.beq a a = true
  | .nil => rfl
  | .cons a as => by
      simp only [JArr.beq, Bool.and_eq_true]
      exact ⟨JVal.beq_refl a, JArr.beq_reflArr as⟩

theorem JObj.beq_reflObj : ∀ a : JObj, JObj.beq a a = true
  | .nil => rfl
  | .cons k a as => by
      simp only [JObj.beq, Bool.and_eq_true, beq_self_eq_true]
      exact ⟨⟨trivial, JVal.beq_refl a⟩, JObj.beq_reflObj as⟩

end

instance : DecidableEq JVal := fun a b =>
  decidable_of_iff (JVal.beq a b = true)
    ⟨JVal.eq_of_beq, fun h => h ▸ JVal.beq_refl a⟩

theorem JVal.beq_eq_true_iff {a b : JVal} : JVal.beq a b = true ↔ a = b :=
  ⟨JVal.eq_of_beq, fun h => h ▸ JVal.beq_refl a⟩

/-- Conversion helper so concrete payloads can be written with list literals. -/
def JArr.ofList : List JVal → JArr
  | [] => .nil
  | v :: vs => .cons v (JArr.ofList vs)

def JArr.toList : JArr → List JVal
  | .nil => []
  | .cons v vs => v :: JArr.toList vs

def JObj.ofList : List (String × JVal) → JObj
  | [] => .nil
  | (k, v) :: vs => .cons k v (JObj.ofList vs)

/-- Keys of a dict, in insertion order (what Python iterates over a dict). -/
def JObj.keys : JObj → List String
  | .nil => []
  | .cons k _ vs => k :: JObj.keys vs

/-- First binding of a key in a dict (Python dicts have unique keys, so the
first binding is the binding). -/
def JObj.lookup : JObj → String → Option JVal
  | .nil, _ => none
  | .cons k v vs, key => if k == key then some v else JObj.lookup vs key

/-! ## Python primitive semantics -/

/-- Python truthiness of a value, as used by if-tests and the or operator. -/
def truthy : JVal → Bool
  | .jnull => false
  | .jnum q => q != 0
  | .jstr s => !s.isEmpty
  | .jbool b => b
  | .jarr .nil => false
  | .jarr (.cons _ _) => true
  | .jobj .nil => false
  | .jobj (.cons _ _ _) => true

/-- Python a or b: the first operand when it is truthy, the second otherwise. -/
def pyOr (a b : JVal) : JVal := if truthy a then a else b

/-- Python d.get(key, default): dictionary lookup with a default; raises
AttributeError when the receiver is not a dict. -/
def pyGet (v : JVal) (key : String) (dflt : JVal) : Except String JVal :=
  match v with
  | .jobj fields => .ok ((fields.lookup key).getD dflt)
  | _ => .error "AttributeError"

/-- Python iteration, as in a for loop: lists yield their elements, strings
their characters, dicts their keys; anything else raises TypeError. -/
def pyIter : JVal → Except String (List JVal)
  | .jarr xs => .ok xs.toList
  | .jstr s => .ok (s.toList.map fun c => .jstr (String.mk [c]))
  | .jobj fs => .ok (fs.keys.map fun k => .jstr k)
  | _ => .error "TypeError"

instance {ε α : Type} [DecidableEq ε] [DecidableEq α] : DecidableEq (Except ε α) := fun a b =>
  match a, b with
  | .ok a, .ok b =>
    if h : a = b then isTrue (by rw [h]) else
      isFalse fun hh => h (Except.ok.inj hh)
  | .error a, .error b =>
    if h : a = b then isTrue (by rw [h]) else
      isFalse fun hh => h (Except.error.inj hh)
  | .ok _, .error _ => isFalse fun hh => Except.noConfusion hh
  | .error _, .ok _ => isFalse fun hh => Except.noConfusion hh

/-- Decimal-literal parser modelling Python float(s) on the plain decimal
strings that occur in payloads; strings that are not plain (optionally signed,
optionally fractional) decimal literals fail, as Python float raises
ValueError on them. -/
def digitsToNat : List Char → Option ℕ
  | [] => none
  | cs => cs.foldlM (fun n c => if c.isDigit then some (10 * n + (c.toNat - 48)) else none) 0

/-- Split a character list at the dots, for the fractional-literal parser. -/
def splitOnDot : List Char → List (List Char)
  | [] => [[]]
  | c :: cs =>
    if c = '.' then [] :: splitOnDot cs
    else
      match splitOnDot cs with
      | [] => [[c]]
      | g :: gs => (c :: g) :: gs

def parseDecimal (s : String) : Option ℚ :=
  let core : List Char → Option ℚ := fun t =>
    match splitOnDot t with
    | [i] => (digitsToNat i).map fun n => (n : ℚ)
    | [i, f] =>
      match digitsToNat i, digitsToNat f with
      | some n, some m => some ((n : ℚ) + (m : ℚ) / (10 : ℚ) ^ f.length)
      | _, _ => none
    | _ => none
  match s.toList with
  | '-' :: rest => (core rest).map Neg.neg
  | cs => core cs

/-- Python float(v): numbers pass through, booleans become 0 or 1, decimal
strings are parsed, everything else raises. -/
def pyFloat : JVal → Except String ℚ
  | .jnum q => .ok q
  | .jbool b => .ok (if b then 1 else 0)
  | .jstr s =>
    match parseDecimal s with
    | some q => .ok q
    | none => .error "ValueError"
  | _ => .error "TypeError"

/-! ## Position normalizer (WalletTracker.analyze_wallet_trades, lines 13-95)

The method both returns the per-wallet data and appends to the shared
token_buyers map as a side effect.  It is embedded as a function returning the
ordered list of (token_address, record) appends it performed before returning
or raising, together with an Except for its result, so that the partial
appends of a raising call are kept, exactly as in the source. -/

/-- One entry of the positions list built by analyze_wallet_trades.  Fields
present only in the open-position dict (lines 34-44) or only in the
closed-position dict (lines 63-73) are Options, none meaning the key is
absent. -/
structure Position where
  token_address : JVal
  symbol : JVal
  name : JVal
  status : String
  balance : ℚ
  unrealized_pnl : Option ℚ
  unrealized_pnl_percent : Option ℚ
  realized_pnl : Option ℚ
  realized_pnl_percent : Option ℚ
  avg_buy_price : ℚ
  current_price : Option ℚ
  avg_sell_price : Option ℚ

/-- One entry appended to token_buyers (lines 48-54 and 77-83). -/
structure BuyerRecord where
  wallet : JVal
  status : String
  pnl : ℚ
  pnl_percent : ℚ
  balance : ℚ

/-- pos.get tokenAddress or pos.get mint or pos.get address (lines 30, 59). -/
def tokenAddressOf (pos : JVal) : Except String JVal := do
  let t1 ← pyGet pos "tokenAddress" .jnull
  let t2 ← pyGet pos "mint" .jnull
  let t3 ← pyGet pos "address" .jnull
  pure (pyOr t1 (pyOr t2 t3))

/-- float of pos.get balance or pos.get currentBalance or 0 (line 39). -/
def openQuantity (pos : JVal) : Except String ℚ := do
  let b1 ← pyGet pos "balance" (.jnum 0)
  let b2 ← pyGet pos "currentBalance" (.jnum 0)
  pyFloat (pyOr b1 (pyOr b2 (.jnum 0)))

/-- float of pos.get unrealizedPnL or pos.get pnl or 0 (line 40). -/
def openPnl (pos : JVal) : Except String ℚ := do
  let u1 ← pyGet pos "unrealizedPnL" (.jnum 0)
  let u2 ← pyGet pos "pnl" (.jnum 0)
  pyFloat (pyOr u1 (pyOr u2 (.jnum 0)))

/-- float of pos.get unrealizedPnLPercent or 0 (line 41). -/
def openPnlPercent (pos : JVal) : Except String ℚ := do
  let u ← pyGet pos "unrealizedPnLPercent" (.jnum 0)
  pyFloat (pyOr u (.jnum 0))

/-- float of pos.get avgBuyPrice or 0 (lines 42, 71). -/
def avgBuyPriceOf (pos : JVal) : Except String ℚ := do
  let u ← pyGet pos "avgBuyPrice" (.jnum 0)
  pyFloat (pyOr u (.jnum 0))

/-- float of pos.get currentPrice or 0 (line 43). -/
def currentPriceOf (pos : JVal) : Except String ℚ := do
  let u ← pyGet pos "currentPrice" (.jnum 0)
  pyFloat (pyOr u (.jnum 0))

/-- float of pos.get realizedPnL or pos.get pnl or 0 (line 69). -/
def closedPnl (pos : JVal) : Except String ℚ := do
  let u1 ← pyGet pos "realizedPnL" (.jnum 0)
  let u2 ← pyGet pos "pnl" (.jnum 0)
  pyFloat (pyOr u1 (pyOr u2 (.jnum 0)))

/-- float of pos.get realizedPnLPercent or 0 (line 70). -/
def closedPnlPercent (pos : JVal) : Except String ℚ := do
  let u ← pyGet pos "realizedPnLPercent" (.jnum 0)
  pyFloat (pyOr u (.jnum 0))

/-- float of pos.get avgSellPrice or 0 (line 72). -/
def avgSellPriceOf (pos : JVal) : Except String ℚ := do
  let u ← pyGet pos "avgSellPrice" (.jnum 0)
  pyFloat (pyOr u (.jnum 0))

/-- Body of the open-positions loop (lines 29-54): none models continue,
some gives the position appended to positions and the record appended to
token_buyers for that position's token. -/
def openStep (wallet pos : JVal) : Except String (Option (Position × BuyerRecord)) := do
  let token ← tokenAddressOf pos
  if truthy token = false then return none
  let sym ← pyGet pos "tokenSymbol" (.jstr "UNKNOWN")
  let nm ← pyGet pos "tokenName" (.jstr "Unknown")
  let bal ← openQuantity pos
  let upnl ← openPnl pos
  let upct ← openPnlPercent pos
  let abp ← avgBuyPriceOf pos
  let cpp ← currentPriceOf pos
  return some
    ({ token_address := token, symbol := sym, name := nm, status := "holding",
       balance := bal, unrealized_pnl := some upnl,
       unrealized_pnl_percent := some upct, realized_pnl := none,
       realized_pnl_percent := none, avg_buy_price := abp,
       current_price := some cpp, avg_sell_price := none },
     { wallet := wallet, status := "holding", pnl := upnl,
       pnl_percent := upct, balance := bal })

/-- Body of the closed-positions loop (lines 58-83); the balance stored is the
literal 0 of lines 68 and 82. -/
def closedStep (wallet pos : JVal) : Except String (Option (Position × BuyerRecord)) := do
  let token ← tokenAddressOf pos
  if truthy token = false then return none
  let sym ← pyGet pos "tokenSymbol" (.jstr "UNKNOWN")
  let nm ← pyGet pos "tokenName" (.jstr "Unknown")
  let rpnl ← closedPnl pos
  let rpct ← closedPnlPercent pos
  let abp ← avgBuyPriceOf pos
  let asp ← avgSellPriceOf pos
  return some
    ({ token_address := token, symbol := sym, name := nm, status := "sold",
       balance := 0, unrealized_pnl := none, unrealized_pnl_percent := none,
       realized_pnl := some rpnl, realized_pnl_percent := some rpct,
       avg_buy_price := abp, current_price := none, avg_sell_price := some asp },
     { wallet := wallet, status := "sold", pnl := rpnl,
       pnl_percent := rpct, balance := 0 })

/-- Runs one of the two position loops over its entries in order, collecting
the positions built and the token_buyers appends performed; a raising entry
stops the loop but the appends already performed are kept (they happened
before the raise in the source). -/
def runEntries (wallet : JVal)
    (step : JVal → JVal → Except String (Option (Position × BuyerRecord))) :
    List JVal → (List Position × List (JVal × BuyerRecord)) × Option String
  | [] => (([], []), none)
  | e :: rest =>
    match step wallet e with
    | .error msg => (([], []), some msg)
    | .ok none => runEntries wallet step rest
    | .ok (some (p, r)) =>
      match runEntries wallet step rest with
      | ((ps, rs), err) => ((p :: ps, (p.token_address, r) :: rs), err)

/-- pnl_data.get key or pnl_data.get data .get key (lines 28 and 57), with
Python or short-circuiting: the nested lookup only runs when the top-level
lookup yields a falsy value. -/
def positionsList (pnl_data : JVal) (key : String) : Except String JVal := do
  let a ← pyGet pnl_data key (.jarr .nil)
  if truthy a then return a
  let d ← pyGet pnl_data "data" (.jobj .nil)
  pyGet d key (.jarr .nil)

/-- The dict returned by analyze_wallet_trades (lines 18-22 and 85-93).  The
no_data dict of lines 18-22 carries no counts in the source; it is modelled
with zero counts, which the caller never reads (only status is read).  The
last_updated timestamp is wall-clock and not modelled. -/
structure WalletData where
  wallet : JVal
  status : String
  total_positions : ℕ
  open_positions : ℕ
  closed_positions : ℕ
  positions : List Position

/-- WalletTracker.analyze_wallet_trades (lines 13-95), for a given raw
pnl payload. Returns the token_buyers appends performed and either the
wallet-data dict or the exception the call raises. -/
def analyze_wallet_trades (wallet pnl_data : JVal) :
    List (JVal × BuyerRecord) × Except String WalletData :=
  if truthy pnl_data = false then
    ([], .ok { wallet := wallet, status := "no_data", total_positions := 0,
               open_positions := 0, closed_positions := 0, positions := [] })
  else
    match positionsList pnl_data "openPositions" with
    | .error e => ([], .error e)
    | .ok ov =>
      match pyIter ov with
      | .error e => ([], .error e)
      | .ok oEntries =>
        match runEntries wallet openStep oEntries with
        | ((_, oEmits), some e) => (oEmits, .error e)
        | ((oPos, oEmits), none) =>
          match positionsList pnl_data "closedPositions" with
          | .error e => (oEmits, .error e)
          | .ok cv =>
            match pyIter cv with
            | .error e => (oEmits, .error e)
            | .ok cEntries =>
              match runEntries wallet closedStep cEntries with
              | ((_, cEmits), some e) => (oEmits ++ cEmits, .error e)
              | ((cPos, cEmits), none) =>
                let positions := oPos ++ cPos
                (oEmits ++ cEmits, .ok {
                  wallet := wallet,
                  status := if positions.length > 0 then "active" else "inactive",
                  total_positions := positions.length,
                  open_positions := (positions.filter fun p => p.status == "holding").length,
                  closed_positions := (positions.filter fun p => p.status == "sold").length,
                  positions := positions })

/-! ## Consensus aggregation state (WalletTracker fields, lines 9-11)

token_buyers is a defaultdict from token address to the list of buyer
records appended for it; tracked_wallets maps wallet address to its data.
Both are Python 3.7+ dicts, so key order is insertion order and overwriting
keeps the original position; they are modelled as association lists with
those operations. -/

abbrev TokenBuyers := List (JVal × List BuyerRecord)

/-- token_buyers with one record appended to one token's list
(defaultdict access plus list append). -/
def tbAppend : TokenBuyers → JVal → BuyerRecord → TokenBuyers
  | [], t, r => [(t, [r])]
  | (t', rs) :: rest, t, r =>
    if JVal.beq t' t then (t', rs ++ [r]) :: rest
    else (t', rs) :: tbAppend rest t r

/-- All appends performed by one analyze_wallet_trades call, in order. -/
def appendEmits (tb : TokenBuyers) (l : List (JVal × BuyerRecord)) : TokenBuyers :=
  l.foldl (fun acc p => tbAppend acc p.1 p.2) tb

/-- Dict assignment tracked_wallets at wallet := data (line 142). -/
def twInsert : List (JVal × WalletData) → JVal → WalletData → List (JVal × WalletData)
  | [], w, d => [(w, d)]
  | (w', d') :: rest, w, d =>
    if JVal.beq w' w then (w', d) :: rest
    else (w', d') :: twInsert rest w d

/-- One element of flagged_tokens (lines 181-190). -/
structure FlaggedToken where
  token_address : JVal
  symbol : JVal
  name : JVal
  total_buyers : ℕ
  still_holding : ℕ
  sold_out : ℕ
  avg_pnl : ℚ
  buyers : List BuyerRecord

/-- Symbol and name resolution (lines 163-172): starts from
buyers[0].get wallet (source line 163 reads the wallet field, not a symbol)
and the literal Unknown, then scans every tracked wallet in order; the break
of line 172 only leaves the inner positions loop, so a later wallet holding
the token overwrites the symbol and name found by an earlier one. -/
def resolveSymbolName (tw : List (JVal × WalletData)) (token : JVal)
    (start : JVal × JVal) : JVal × JVal :=
  tw.foldl
    (fun acc p =>
      match p.2.positions.find? (fun pos => JVal.beq pos.token_address token) with
      | some pos => (pos.symbol, pos.name)
      | none => acc)
    start

/-- The flagged dict built for one token passing the threshold
(lines 162-190).  buyers is never empty when this is reached (every
token_buyers bucket is created by an append), matching the source's
buyers[0] access and its if buyers else 0 guard. -/
def mkFlagged (tw : List (JVal × WalletData)) (token : JVal)
    (buyers : List BuyerRecord) : FlaggedToken :=
  let start : JVal × JVal :=
    (match buyers with
     | [] => .jstr "UNKNOWN"
     | b :: _ => b.wallet, .jstr "Unknown")
  let sn := resolveSymbolName tw token start
  let holders := buyers.filter fun b => b.status == "holding"
  let sellers := buyers.filter fun b => b.status == "sold"
  let avg : ℚ :=
    if buyers.isEmpty then 0
    else (buyers.map fun b => b.pnl).sum / (buyers.length : ℚ)
  { token_address := token, symbol := sn.1, name := sn.2,
    total_buyers := buyers.length, still_holding := holders.length,
    sold_out := sellers.length, avg_pnl := avg, buyers := buyers }

/-- The flagged list before sorting: tokens met in token_buyers insertion
order (= first-discovery order within the scan), kept when their buyer count
reaches min_buyers (lines 160-192). -/
def flaggedPreSort (tb : TokenBuyers) (tw : List (JVal × WalletData))
    (min_buyers : ℕ) : List FlaggedToken :=
  (List.filter (fun p => decide (min_buyers ≤ p.2.length)) tb).map
    fun p => mkFlagged tw p.1 p.2

/-- Comparison used by the sort of line 197: Python list.sort with
key total_buyers and reverse set is a stable descending sort, and a stable
sort is uniquely determined by its key, so any stable implementation of
descending-by-total_buyers is the same function on lists. -/
def byBuyersDesc (a b : FlaggedToken) : Prop :=
  b.total_buyers ≤ a.total_buyers

instance : DecidableRel byBuyersDesc := fun a b =>
  Nat.decLe b.total_buyers a.total_buyers

/-- Step 3 of the scan (lines 160-197): filter token_buyers by the
threshold, build the flagged dicts, stable-sort by total_buyers descending. -/
def finalizeTokens (tb : TokenBuyers) (tw : List (JVal × WalletData))
    (min_buyers : ℕ) : List FlaggedToken :=
  (flaggedPreSort tb tw min_buyers).insertionSort byBuyersDesc

/-- Default of the min_buyers parameter in the source signature (line 97). -/
def scan_default_min_buyers : ℕ := 2

/-! ## Scan orchestrator (WalletTracker.scan_top_traders, lines 97-207)

The provider calls get_top_traders and get_wallet_pnl are declared on
SolanaAPIClient but have no definition anywhere in src/; per the spec
(section 6) they return a payload or None and never raise, so they enter the
model as function parameters: the discovery result is an optional list of
trader dicts and the per-wallet fetch is a total function into payloads. -/

structure TrackerState where
  tracked_wallets : List (JVal × WalletData)
  token_buyers : TokenBuyers
  flagged_tokens : List FlaggedToken

/-- trader.get wallet or trader.get address (line 128); raises when the
trader entry is not a dict, and this happens outside the try of line 138. -/
def resolveWallet (trader : JVal) : Except String JVal := do
  let a ← pyGet trader "wallet" .jnull
  let b ← pyGet trader "address" .jnull
  pure (pyOr a b)

/-- One iteration of the trader loop (lines 127-150): resolve the wallet
(continue when falsy), run analyze_wallet_trades inside try, keep its
token_buyers appends whether or not it raised, and record the wallet only on
a non-raising active result.  The print statements are not modelled. -/
def scanStep (fetch : JVal → JVal) (st : TrackerState) (trader : JVal) :
    Except String TrackerState :=
  match resolveWallet trader with
  | .error e => .error e
  | .ok wallet =>
    if truthy wallet = false then .ok st
    else
      let er := analyze_wallet_trades wallet (fetch wallet)
      let tb := appendEmits st.token_buyers er.1
      match er.2 with
      | .error _ => .ok { st with token_buyers := tb }
      | .ok d =>
        if d.status == "active" then
          .ok { tracked_wallets := twInsert st.tracked_wallets wallet d,
                token_buyers := tb, flagged_tokens := st.flagged_tokens }
        else .ok { st with token_buyers := tb }

def scanLoop (fetch : JVal → JVal) : TrackerState → List JVal →
    Except String TrackerState
  | st, [] => .ok st
  | st, t :: rest =>
    match scanStep fetch st t with
    | .error e => .error e
    | .ok st' => scanLoop fetch st' rest

/-- WalletTracker.scan_top_traders (lines 97-207).  st0 is the tracker state
left by any earlier scan; lines 106-109 clear it before anything else.
top_traders is the discovery result (None or a list); a falsy one returns the
empty list at line 117.  num_traders only parameterizes the provider call and
so does not appear: discovery is already a parameter.  Returns the final
tracker state and the returned flagged list. -/
def scan_top_traders (fetch : JVal → JVal) (top_traders : Option (List JVal))
    (st0 : TrackerState) (min_buyers : ℕ) :
    Except String (TrackerState × List FlaggedToken) :=
  let _ := st0
  let cleared : TrackerState := ⟨[], [], []⟩
  match top_traders with
  | none => .ok (cleared, [])
  | some [] => .ok (cleared, [])
  | some traders =>
    match scanLoop fetch cleared traders with
    | .error e => .error e
    | .ok st =>
      let flagged := finalizeTokens st.token_buyers st.tracked_wallets min_buyers
      .ok ({ st with flagged_tokens := flagged }, flagged)

/-! ## Spec-modelled components

The two definitions below are required by claims whose deciding code is not
under src/. -/

/-- Modelled from the spec: delta classification, spec section 4.3.  The
position-delta state machine (states holding, sold_partially, sold_all,
computed from a previous and a current snapshot keyed by resource id) has no
counterpart anywhere under src/; solana_tracker.py never compares two
snapshots of the same wallet.  Snapshots are association lists from resource
id to quantity. -/
def soldP (current : List (String × ℚ)) (p : String × ℚ) : Bool :=
  decide (((current.lookup p.1).getD 0) = 0)

/-- Modelled from the spec: a previously held resource counts as reduced when
it is present in the current snapshot with a strictly smaller quantity
(spec section 4.3). -/
def reducedP (current : List (String × ℚ)) (p : String × ℚ) : Bool :=
  match current.lookup p.1 with
  | some q => decide (q < p.2)
  | none => false

/-- Modelled from the spec: the transition rule of spec section 4.3, a pure
function of the two snapshots. -/
def classify_delta (previous current : List (String × ℚ)) : String :=
  if current.isEmpty then "sold_all"
  else if previous.countP (soldP current) = previous.length then "sold_all"
  else if 0 < previous.countP (soldP current) ∨ 0 < previous.countP (reducedP current)
    then "sold_partially"
  else "holding"

/-- Modelled from the spec: initial state on first observation is holding
(no prior snapshot), spec section 4.3. -/
def classify_observation : Option (List (String × ℚ)) → List (String × ℚ) → String
  | none, _ => "holding"
  | some prev, cur => classify_delta prev cur

/-- Modelled from the spec: balances-mode quantity normalization, spec
section 4.1.  No code under src/ performs it: api_client.get_wallet_tokens
returns raw token records untouched and nothing in src/ consumes them.  The
raw amount is divided by ten to the decimals exactly when decimals is
positive and the raw amount exceeds one. -/
def normalize_quantity (raw : ℚ) (decimals : ℕ) : ℚ :=
  if 0 < decimals ∧ 1 < raw then raw / (10 : ℚ) ^ decimals else raw

/-! ## Helper lemmas -/

theorem except_bind_ok {ε α β : Type} {x : Except ε α} {f : α → Except ε β} {b : β}
    (h : x >>= f = .ok b) : ∃ a, x = .ok a ∧ f a = .ok b := by
  cases x with
  | error e => simp [Bind.bind, Except.bind] at h
  | ok a => exact ⟨a, rfl, h⟩

/-- Inversion of a successful open-entry step: the components it read from
the entry and the position and record it produced. -/
theorem openStep_ok_some {w e : JVal} {p : Position} {r : BuyerRecord}
    (h : openStep w e = .ok (some (p, r))) :
    ∃ token sym nm bal upnl upct abp cpp,
      tokenAddressOf e = .ok token ∧ truthy token = true ∧
      pyGet e "tokenSymbol" (.jstr "UNKNOWN") = .ok sym ∧
      pyGet e "tokenName" (.jstr "Unknown") = .ok nm ∧
      openQuantity e = .ok bal ∧ openPnl e = .ok upnl ∧
      openPnlPercent e = .ok upct ∧ avgBuyPriceOf e = .ok abp ∧
      currentPriceOf e = .ok cpp ∧
      p = { token_address := token, symbol := sym, name := nm, status := "holding",
            balance := bal, unrealized_pnl := some upnl,
            unrealized_pnl_percent := some upct, realized_pnl := none,
            realized_pnl_percent := none, avg_buy_price := abp,
            current_price := some cpp, avg_sell_price := none } ∧
      r = { wallet := w, status := "holding", pnl := upnl,
            pnl_percent := upct, balance := bal } := by
  unfold openStep at h
  obtain ⟨token, h1, h⟩ := except_bind_ok h
  split at h
  · simp [pure, Except.pure] at h
  · next ht =>
    obtain ⟨_, _, h⟩ := except_bind_ok h
    obtain ⟨sym, h2, h⟩ := except_bind_ok h
    obtain ⟨nm, h3, h⟩ := except_bind_ok h
    obtain ⟨bal, h4, h⟩ := except_bind_ok h
    obtain ⟨upnl, h5, h⟩ := except_bind_ok h
    obtain ⟨upct, h6, h⟩ := except_bind_ok h
    obtain ⟨abp, h7, h⟩ := except_bind_ok h
    obtain ⟨cpp, h8, h⟩ := except_bind_ok h
    simp only [pure, Except.pure, Except.ok.injEq, Option.some.injEq, Prod.mk.injEq] at h
    have htt : truthy token = true := by
      cases hb : truthy token
      · exact absurd hb ht
      · rfl
    exact ⟨token, sym, nm, bal, upnl, upct, abp, cpp, h1, htt,
      h2, h3, h4, h5, h6, h7, h8, h.1.symm, h.2.symm⟩

/-- Inversion of a successful closed-entry step. -/
theorem closedStep_ok_some {w e : JVal} {p : Position} {r : BuyerRecord}
    (h : closedStep w e = .ok (some (p, r))) :
    ∃ token sym nm rpnl rpct abp asp,
      tokenAddressOf e = .ok token ∧ truthy token = true ∧
      pyGet e "tokenSymbol" (.jstr "UNKNOWN") = .ok sym ∧
      pyGet e "tokenName" (.jstr "Unknown") = .ok nm ∧
      closedPnl e = .ok rpnl ∧ closedPnlPercent e = .ok rpct ∧
      avgBuyPriceOf e = .ok abp ∧ avgSellPriceOf e = .ok asp ∧
      p = { token_address := token, symbol := sym, name := nm, status := "sold",
            balance := 0, unrealized_pnl := none, unrealized_pnl_percent := none,
            realized_pnl := some rpnl, realized_pnl_percent := some rpct,
            avg_buy_price := abp, current_price := none,
            avg_sell_price := some asp } ∧
      r = { wallet := w, status := "sold", pnl := rpnl,
            pnl_percent := rpct, balance := 0 } := by
  unfold closedStep at h
  obtain ⟨token, h1, h⟩ := except_bind_ok h
  split at h
  · simp [pure, Except.pure] at h
  · next ht =>
    obtain ⟨_, _, h⟩ := except_bind_ok h
    obtain ⟨sym, h2, h⟩ := except_bind_ok h
    obtain ⟨nm, h3, h⟩ := except_bind_ok h
    obtain ⟨rpnl, h4, h⟩ := except_bind_ok h
    obtain ⟨rpct, h5, h⟩ := except_bind_ok h
    obtain ⟨abp, h6, h⟩ := except_bind_ok h
    obtain ⟨asp, h7, h⟩ := except_bind_ok h
    simp only [pure, Except.pure, Except.ok.injEq, Option.some.injEq, Prod.mk.injEq] at h
    have htt : truthy token = true := by
      cases hb : truthy token
      · exact absurd hb ht
      · rfl
    exact ⟨token, sym, nm, rpnl, rpct, abp, asp, h1, htt,
      h2, h3, h4, h5, h6, h7, h.1.symm, h.2.symm⟩

/-! ## Claims -/

/-- C7: when subject discovery returns None or an empty list, the scan
returns the empty flagged sequence without raising, and both the tracked
wallet store and the flagged-token list of the resulting tracker state are
empty (whatever state an earlier scan had left). -/
theorem scan_empty_discovery (fetch : JVal → JVal) (st0 : TrackerState)
    (m : ℕ) (d : Option (List JVal)) (h : d = none ∨ d = some []) :
    scan_top_traders fetch d st0 m = .ok (⟨[], [], []⟩, []) := by
  rcases h with h | h <;> subst h <;> rfl

theorem scan_empty_discovery_witness :
    scan_top_traders (fun _ => .jnull) none
      ⟨[(.jstr "w", ⟨.jstr "w", "active", 1, 1, 0, []⟩)],
       [(.jstr "T", [⟨.jstr "w", "holding", 0, 0, 1⟩])], []⟩ 2
      = .ok (⟨[], [], []⟩, []) :=
  scan_empty_discovery _ _ 2 none (Or.inl rfl)

/-- C9: in balances mode the quantity equals the raw amount divided by ten to
the decimals exactly when decimals is positive and the raw amount exceeds
one, and equals the raw amount unchanged in every other case. -/
theorem normalize_quantity_spec (raw : ℚ) (d : ℕ) :
    (0 < d ∧ 1 < raw → normalize_quantity raw d = raw / (10 : ℚ) ^ d)
    ∧ (¬(0 < d ∧ 1 < raw) → normalize_quantity raw d = raw) := by
  constructor <;> intro h <;> simp [normalize_quantity, h]

theorem normalize_quantity_spec_witness :
    ((0 < 2 ∧ (1 : ℚ) < 100) ∧ normalize_quantity 100 2 = 100 / (10 : ℚ) ^ 2)
    ∧ (¬(0 < 2 ∧ (1 : ℚ) < -3) ∧ normalize_quantity (-3) 2 = -3) :=
  ⟨⟨⟨by decide, by decide⟩, (normalize_quantity_spec 100 2).1 ⟨by decide, by decide⟩⟩,
   ⟨by decide, (normalize_quantity_spec (-3) 2).2 (by decide)⟩⟩

/-- C4: the delta classification is the pure function classify_delta of the
two snapshots: an empty current snapshot classifies as sold_all; so does one
in which every previously held resource is sold (quantity exactly zero or
absent); else one sold or strictly reduced previously held resource
classifies as sold_partially; otherwise the classification is holding; and a
first observation with no prior snapshot classifies as holding. -/
theorem classify_delta_spec (prev cur : List (String × ℚ)) :
    (∀ c, classify_observation none c = "holding")
    ∧ classify_delta prev [] = "sold_all"
    ∧ ((∀ p ∈ prev, soldP cur p = true) → classify_delta prev cur = "sold_all")
    ∧ (¬(∀ p ∈ prev, soldP cur p = true) →
        (∃ p ∈ prev, soldP cur p = true ∨ reducedP cur p = true) →
        classify_delta prev cur = "sold_partially")
    ∧ (cur ≠ [] → ¬(∀ p ∈ prev, soldP cur p = true) →
        (∀ p ∈ prev, soldP cur p = false ∧ reducedP cur p = false) →
        classify_delta prev cur = "holding") := by
  refine ⟨fun c => rfl, by simp [classify_delta], ?_, ?_, ?_⟩
  · intro h
    by_cases hc : cur.isEmpty
    · simp [classify_delta, hc]
    · simp [classify_delta, hc, List.countP_eq_length.mpr h]
  · intro hna hex
    have hcur : cur ≠ [] := by
      rintro rfl
      exact hna fun p hp => by simp [soldP]
    have hA : ¬(cur.isEmpty = true) := by
      cases cur
      · exact absurd rfl hcur
      · simp
    have h1 : prev.countP (soldP cur) ≠ prev.length :=
      fun he => hna (List.countP_eq_length.mp he)
    have h2 : 0 < prev.countP (soldP cur) ∨ 0 < prev.countP (reducedP cur) := by
      obtain ⟨p, hp, hor⟩ := hex
      rcases hor with h | h
      · exact Or.inl (List.countP_pos_iff.mpr ⟨p, hp, h⟩)
      · exact Or.inr (List.countP_pos_iff.mpr ⟨p, hp, h⟩)
    unfold classify_delta
    rw [if_neg hA, if_neg h1, if_pos h2]
  · intro hcur hna hall
    have hA : ¬(cur.isEmpty = true) := by
      cases cur
      · exact absurd rfl hcur
      · simp
    have hs : prev.countP (soldP cur) = 0 :=
      List.countP_eq_zero.mpr fun p hp => by simp [(hall p hp).1]
    have hr : prev.countP (reducedP cur) = 0 :=
      List.countP_eq_zero.mpr fun p hp => by simp [(hall p hp).2]
    have hprev : prev ≠ [] := by
      rintro rfl
      exact hna fun p hp => absurd hp (List.not_mem_nil p)
    have hne : prev.countP (soldP cur) ≠ prev.length := by
      rw [hs]
      exact fun he => hprev (List.eq_nil_of_length_eq_zero he.symm)
    have hC : ¬(0 < prev.countP (soldP cur) ∨ 0 < prev.countP (reducedP cur)) := by
      rw [hs, hr]
      simp
    unfold classify_delta
    rw [if_neg hA, if_neg hne, if_neg hC]

/-- The previous snapshot A at 10, B at 5 of the spec's delta test vectors. -/
def prevAB : List (String × ℚ) := [("A", 10), ("B", 5)]

theorem classify_delta_spec_witness :
    classify_observation none [("A", 10)] = "holding"
    ∧ classify_delta prevAB [] = "sold_all"
    ∧ classify_delta prevAB [("A", 0), ("B", 0)] = "sold_all"
    ∧ classify_delta prevAB [("A", 10)] = "sold_partially"
    ∧ classify_delta prevAB [("A", 5), ("B", 5)] = "sold_partially"
    ∧ classify_delta prevAB [("A", 10), ("B", 5)] = "holding" :=
  ⟨(classify_delta_spec prevAB []).1 _,
   (classify_delta_spec prevAB []).2.1,
   (classify_delta_spec prevAB [("A", 0), ("B", 0)]).2.2.1 (by decide),
   (classify_delta_spec prevAB [("A", 10)]).2.2.2.1 (by decide) (by decide),
   (classify_delta_spec prevAB [("A", 5), ("B", 5)]).2.2.2.1 (by decide) (by decide),
   (classify_delta_spec prevAB [("A", 10), ("B", 5)]).2.2.2.2 (by decide) (by decide) (by decide)⟩

/-! ## Concrete payloads used by the remaining claims -/

/-- A pnl payload whose only position is closed: token T, realized PnL 5. -/
def payloadSoldOnly : JVal :=
  .jobj (JObj.ofList [("closedPositions", .jarr (JArr.ofList
    [.jobj (JObj.ofList [("tokenAddress", .jstr "T"), ("realizedPnL", .jnum 5)])]))])

/-- Two discovered traders with wallets w1 and w2. -/
def twoTraders : List JVal :=
  [.jobj (JObj.ofList [("wallet", .jstr "w1")]),
   .jobj (JObj.ofList [("wallet", .jstr "w2")])]

/-- C1 counterexample: run the scan over two traders whose only position on
token T is closed (lifecycle sold).  Both sold positions append holder
records, so T is flagged with two buyers although zero subjects are still
holding it: a sold position does add to the holder count, and a flagged
resource need not have min_holders subjects currently holding. -/
theorem scan_flags_token_with_no_holders :
    (match scan_top_traders (fun _ => payloadSoldOnly) (some twoTraders)
        ⟨[], [], []⟩ 2 with
     | .ok (_, fl) =>
       fl.map fun f => (f.token_address, f.total_buyers, f.still_holding, f.sold_out)
     | .error _ => []) = [(.jstr "T", 2, 0, 2)]
    ∧ ¬(2 ≤ (0 : ℕ)) :=
  ⟨rfl, by decide⟩

/-- An open-position entry on token T with an integer balance. -/
def entryT : JVal :=
  .jobj (JObj.ofList [("tokenAddress", .jstr "T"), ("balance", .jnum 7)])

/-- A pnl payload whose open list carries the same token-T entry twice. -/
def payloadDupT : JVal :=
  .jobj (JObj.ofList [("openPositions", .jarr (JArr.ofList [entryT, entryT]))])

/-- C2 counterexample: a payload listing the same resource id twice in its
open positions yields two Positions for that resource in the normalized
list (not exactly one) and two holder records for it from the one subject,
so the subject double-counts toward the threshold. -/
theorem analyze_duplicate_token_double_counts :
    (match (analyze_wallet_trades (.jstr "w") payloadDupT).2 with
     | .ok d => (d.positions.filter fun p => JVal.beq p.token_address (.jstr "T")).length
     | .error _ => 0) = 2
    ∧ (appendEmits [] (analyze_wallet_trades (.jstr "w") payloadDupT).1).map
        (fun b => (b.1, b.2.length, b.2.map fun r => r.wallet))
      = [(.jstr "T", 2, [.jstr "w", .jstr "w"])]
    ∧ (2 : ℕ) ≠ 1 :=
  ⟨rfl, rfl, by decide⟩

/-- A dict payload whose one open entry has a truthy non-numeric balance. -/
def payloadBadBalance : JVal :=
  .jobj (JObj.ofList [("openPositions", .jarr (JArr.ofList
    [.jobj (JObj.ofList [("tokenAddress", .jstr "T"), ("balance", .jstr "abc")])]))])

/-- C3 counterexample: normalization does raise.  A truthy payload that is
not a dict raises AttributeError at the first get, and a truthy
malformed numeric string raises ValueError out of float instead of being
coerced to 0. -/
theorem analyze_raises_on_bad_payloads :
    (analyze_wallet_trades (.jstr "w") (.jarr (JArr.ofList [.jnum 1]))).2
      = .error "AttributeError"
    ∧ (analyze_wallet_trades (.jstr "w") payloadBadBalance).2 = .error "ValueError" :=
  ⟨rfl, rfl⟩

/-- An open-position entry on token T with balance 3. -/
def entryT3 : JVal :=
  .jobj (JObj.ofList [("tokenAddress", .jstr "T"), ("balance", .jnum 3)])

/-- An open-position entry whose balance string cannot parse as a number. -/
def entryBad : JVal :=
  .jobj (JObj.ofList [("tokenAddress", .jstr "U"), ("balance", .jstr "oops")])

/-- w1's payload: a good token-T entry followed by the raising entry. -/
def payloadGoodThenBad : JVal :=
  .jobj (JObj.ofList [("openPositions", .jarr (JArr.ofList [entryT3, entryBad]))])

/-- w2's payload: just the good token-T entry. -/
def payloadGoodOnly : JVal :=
  .jobj (JObj.ofList [("openPositions", .jarr (JArr.ofList [entryT3]))])

/-- Fetch for the C10 run: w1 gets the raising payload, w2 the good one. -/
def fetchMixed : JVal → JVal := fun w =>
  if JVal.beq w (.jstr "w1") then payloadGoodThenBad else payloadGoodOnly

/-- C10: per-subject analysis is not atomic with respect to the consensus
state.  w1's payload raises after its first position was processed; w1 is
absent from the tracked-wallet store, yet its token-T holder record stays in
token_buyers and finalize counts it: T is flagged with two buyers, w1 among
them, while only w2 is tracked. -/
theorem scan_keeps_appends_of_failed_subject :
    (match scan_top_traders fetchMixed (some twoTraders) ⟨[], [], []⟩ 2 with
     | .ok (st, fl) =>
       (st.tracked_wallets.map fun p => p.1,
        fl.map fun f => (f.token_address, f.total_buyers, f.buyers.map fun b => b.wallet))
     | .error _ => ([], [])) =
    ([.jstr "w2"], [(.jstr "T", 2, [.jstr "w1", .jstr "w2"])]) := rfl


/-- C1 (amended): both lifecycle statuses feed the aggregator: every
qualifying open entry appends a holder record with status holding and every
qualifying closed entry appends one with status sold, so a resource flagged
by finalize has at least min_holders holder records, meaning subjects that
bought it (still holding or already sold), not necessarily min_holders
subjects currently holding. -/
theorem buyer_records_and_threshold :
    (∀ w e p r, openStep w e = .ok (some (p, r)) → r.status = "holding")
    ∧ (∀ w e p r, closedStep w e = .ok (some (p, r)) → r.status = "sold")
    ∧ (∀ (tb : TokenBuyers) tw m f, f ∈ finalizeTokens tb tw m → m ≤ f.total_buyers) := by
  refine ⟨?_, ?_, ?_⟩
  · intro w e p r h
    obtain ⟨_, _, _, _, _, _, _, _, _, _, _, _, _, _, _, _, _, _, hr⟩ := openStep_ok_some h
    rw [hr]
  · intro w e p r h
    obtain ⟨_, _, _, _, _, _, _, _, _, _, _, _, _, _, _, _, hr⟩ := closedStep_ok_some h
    rw [hr]
  · intro tb tw m f hf
    have hf2 : f ∈ flaggedPreSort tb tw m :=
      (List.mem_insertionSort byBuyersDesc).mp hf
    unfold flaggedPreSort at hf2
    obtain ⟨⟨t, rs⟩, hmem, rfl⟩ := List.mem_map.mp hf2
    exact of_decide_eq_true (List.mem_filter.mp hmem).2

/-- The closed-position entry used inside payloadSoldOnly. -/
def closedEntryT : JVal :=
  .jobj (JObj.ofList [("tokenAddress", .jstr "T"), ("realizedPnL", .jnum 5)])

/-- A holder record used to build concrete token_buyers buckets. -/
def rbW : BuyerRecord := ⟨.jstr "x", "holding", 0, 0, 1⟩

/-- A concrete token_buyers map with one token and two records. -/
def tbW : TokenBuyers := [(.jstr "T", [rbW, rbW])]

theorem buyer_records_and_threshold_witness :
    (⟨.jstr "w", "holding", 0, 0, 7⟩ : BuyerRecord).status = "holding"
    ∧ (⟨.jstr "w1", "sold", 5, 0, 0⟩ : BuyerRecord).status = "sold"
    ∧ 2 ≤ (mkFlagged [] (.jstr "T") [rbW, rbW]).total_buyers :=
  ⟨buyer_records_and_threshold.1 (.jstr "w") entryT _ _ rfl,
   buyer_records_and_threshold.2.1 (.jstr "w1") closedEntryT _ _ rfl,
   buyer_records_and_threshold.2.2 tbW [] 2 _ (List.Mem.head _)⟩


/-- C8: in pnl mode the open and closed sub-lists are read by the same
two-level lookup, which yields the empty list when the key is absent from
both the top level and the data nesting; a qualifying open entry maps to a
holding Position whose quantity is the parsed current balance and whose pnl
fields are the unrealized ones; a qualifying closed entry maps to a sold
Position with quantity zero and the realized pnl fields. -/
theorem pnl_mode_mapping :
    (∀ (fields : JObj) key, fields.lookup key = none → fields.lookup "data" = none →
        positionsList (.jobj fields) key = .ok (.jarr .nil))
    ∧ (∀ (fields dfields : JObj) key, fields.lookup key = none →
        fields.lookup "data" = some (.jobj dfields) → dfields.lookup key = none →
        positionsList (.jobj fields) key = .ok (.jarr .nil))
    ∧ (∀ w e p r, openStep w e = .ok (some (p, r)) →
        p.status = "holding" ∧ r.status = "holding" ∧
        openQuantity e = .ok p.balance ∧ r.balance = p.balance ∧
        openPnl e = .ok r.pnl ∧ p.unrealized_pnl = some r.pnl ∧
        openPnlPercent e = .ok r.pnl_percent ∧
        p.unrealized_pnl_percent = some r.pnl_percent ∧ p.realized_pnl = none)
    ∧ (∀ w e p r, closedStep w e = .ok (some (p, r)) →
        p.status = "sold" ∧ r.status = "sold" ∧ p.balance = 0 ∧ r.balance = 0 ∧
        closedPnl e = .ok r.pnl ∧ p.realized_pnl = some r.pnl ∧
        closedPnlPercent e = .ok r.pnl_percent ∧
        p.realized_pnl_percent = some r.pnl_percent ∧ p.unrealized_pnl = none) := by
  refine ⟨?_, ?_, ?_, ?_⟩
  · intro fields key hk hd
    simp [positionsList, pyGet, JObj.lookup, hk, hd, truthy, bind, Except.bind,
      pure, Except.pure]
  · intro fields dfields key hk hd hdk
    simp [positionsList, pyGet, JObj.lookup, hk, hd, hdk, truthy, bind, Except.bind,
      pure, Except.pure]
  · intro w e p r h
    obtain ⟨token, sym, nm, bal, upnl, upct, abp, cpp, h1, ht, h2, h3, h4, h5,
      h6, h7, h8, hp, hr⟩ := openStep_ok_some h
    subst hp; subst hr
    exact ⟨rfl, rfl, h4, rfl, h5, rfl, h6, rfl, rfl⟩
  · intro w e p r h
    obtain ⟨token, sym, nm, rpnl, rpct, abp, asp, h1, ht, h2, h3, h4, h5,
      h6, h7, hp, hr⟩ := closedStep_ok_some h
    subst hp; subst hr
    exact ⟨rfl, rfl, rfl, rfl, h4, rfl, h5, rfl, rfl⟩

/-- The Position that openStep builds from entryT for wallet w. -/
def posT : Position :=
  ⟨.jstr "T", .jstr "UNKNOWN", .jstr "Unknown", "holding", 7,
   some 0, some 0, none, none, 0, some 0, none⟩

/-- The BuyerRecord that openStep builds from entryT for wallet w. -/
def recT : BuyerRecord := ⟨.jstr "w", "holding", 0, 0, 7⟩

/-- The Position that closedStep builds from closedEntryT for wallet w1. -/
def posTc : Position :=
  ⟨.jstr "T", .jstr "UNKNOWN", .jstr "Unknown", "sold", 0,
   none, none, some 5, some 0, 0, none, some 0⟩

/-- The BuyerRecord that closedStep builds from closedEntryT for wallet w1. -/
def recTc : BuyerRecord := ⟨.jstr "w1", "sold", 5, 0, 0⟩

theorem pnl_mode_mapping_witness :
    positionsList (.jobj (JObj.ofList [("x", .jnum 1)])) "openPositions"
      = .ok (.jarr .nil)
    ∧ positionsList (.jobj (JObj.ofList [("data", .jobj .nil)])) "openPositions"
      = .ok (.jarr .nil)
    ∧ (posT.status = "holding" ∧ recT.status = "holding" ∧
        openQuantity entryT = .ok posT.balance ∧ recT.balance = posT.balance ∧
        openPnl entryT = .ok recT.pnl ∧ posT.unrealized_pnl = some recT.pnl ∧
        openPnlPercent entryT = .ok recT.pnl_percent ∧
        posT.unrealized_pnl_percent = some recT.pnl_percent ∧ posT.realized_pnl = none)
    ∧ (posTc.status = "sold" ∧ recTc.status = "sold" ∧ posTc.balance = 0 ∧
        recTc.balance = 0 ∧ closedPnl closedEntryT = .ok recTc.pnl ∧
        posTc.realized_pnl = some recTc.pnl ∧
        closedPnlPercent closedEntryT = .ok recTc.pnl_percent ∧
        posTc.realized_pnl_percent = some recTc.pnl_percent ∧
        posTc.unrealized_pnl = none) :=
  ⟨pnl_mode_mapping.1 (JObj.ofList [("x", .jnum 1)]) "openPositions" rfl rfl,
   pnl_mode_mapping.2.1 (JObj.ofList [("data", .jobj .nil)]) .nil "openPositions" rfl rfl rfl,
   pnl_mode_mapping.2.2.1 (.jstr "w") entryT posT recT rfl,
   pnl_mode_mapping.2.2.2 (.jstr "w1") closedEntryT posTc recTc rfl⟩

/-- C2 (amended): the normalizer deduplicates nothing: a payload whose open
list contains the same qualifying entry twice yields two Positions for that
resource in the subject list and appends two holder records for it from the
one subject, so the resource bucket carries that subject twice and the
subject double-counts toward min_holders. -/
theorem analyze_no_dedup (w e : JVal) (p : Position) (r : BuyerRecord)
    (h : openStep w e = .ok (some (p, r))) :
    (analyze_wallet_trades w
        (.jobj (JObj.ofList [("openPositions", .jarr (JArr.ofList [e, e]))]))).1
      = [(p.token_address, r), (p.token_address, r)]
    ∧ (match (analyze_wallet_trades w
          (.jobj (JObj.ofList [("openPositions", .jarr (JArr.ofList [e, e]))]))).2 with
       | .ok d => d.positions
       | .error _ => []) = [p, p]
    ∧ appendEmits [] [(p.token_address, r), (p.token_address, r)]
      = [(p.token_address, [r, r])] := by
  have h3 : runEntries w openStep [e, e]
      = (([p, p], [(p.token_address, r), (p.token_address, r)]), none) := by
    simp [runEntries, h]
  have hc : runEntries w closedStep [] = (([], []), none) := rfl
  obtain ⟨token, sym, nm, bal, upnl, upct, abp, cpp, h1, ht, h2, hs3, h4, h5,
    h6, h7, h8, hp, hr⟩ := openStep_ok_some h
  subst hp; subst hr
  refine ⟨?_, ?_, ?_⟩
  · simp [analyze_wallet_trades, h3, truthy, JObj.ofList, JArr.ofList, positionsList,
      pyGet, JObj.lookup, pyIter, JArr.toList, hc, bind, Except.bind, pure, Except.pure]
  · simp [analyze_wallet_trades, h3, truthy, JObj.ofList, JArr.ofList, positionsList,
      pyGet, JObj.lookup, pyIter, JArr.toList, hc, bind, Except.bind, pure, Except.pure]
  · simp [appendEmits, tbAppend, JVal.beq_refl]

theorem analyze_no_dedup_witness :
    (analyze_wallet_trades (.jstr "w") payloadDupT).1
      = [(posT.token_address, recT), (posT.token_address, recT)]
    ∧ (match (analyze_wallet_trades (.jstr "w") payloadDupT).2 with
       | .ok d => d.positions
       | .error _ => []) = [posT, posT]
    ∧ appendEmits [] [(posT.token_address, recT), (posT.token_address, recT)]
      = [(posT.token_address, [recT, recT])] :=
  analyze_no_dedup (.jstr "w") entryT posT recT rfl

/-- C3 (amended): normalization returns an empty position list without
raising when the payload is falsy (None, empty containers) and when it is a
dict carrying no position lists at either nesting level, and numeric fields
that are absent or falsy are coerced to 0; but a truthy payload that is not
a dict, or a truthy malformed numeric string, raises instead of being
handled. -/
theorem analyze_safe_cases :
    (∀ w pd, truthy pd = false →
        analyze_wallet_trades w pd
          = ([], .ok ⟨w, "no_data", 0, 0, 0, []⟩))
    ∧ (∀ w (fields : JObj), truthy (.jobj fields) = true →
        fields.lookup "openPositions" = none →
        fields.lookup "closedPositions" = none →
        fields.lookup "data" = none →
        analyze_wallet_trades w (.jobj fields)
          = ([], .ok ⟨w, "inactive", 0, 0, 0, []⟩))
    ∧ (∀ a b : JVal, truthy a = false → truthy b = false →
        pyFloat (pyOr a (pyOr b (.jnum 0))) = .ok 0) := by
  refine ⟨?_, ?_, ?_⟩
  · intro w pd hf
    simp [analyze_wallet_trades, hf]
  · intro w fields ht hk hc hd
    have hnil : truthy (.jarr .nil) = false := rfl
    simp [analyze_wallet_trades, ht, positionsList, pyGet, JObj.lookup, hk, hc, hd,
      hnil, pyIter, runEntries, bind, Except.bind, pure, Except.pure]
  · intro a b ha hb
    simp [pyOr, ha, hb, pyFloat]

theorem analyze_safe_cases_witness :
    analyze_wallet_trades (.jstr "w") .jnull
      = ([], .ok ⟨.jstr "w", "no_data", 0, 0, 0, []⟩)
    ∧ analyze_wallet_trades (.jstr "w") (.jobj (JObj.ofList [("x", .jnum 1)]))
      = ([], .ok ⟨.jstr "w", "inactive", 0, 0, 0, []⟩)
    ∧ pyFloat (pyOr .jnull (pyOr (.jstr "") (.jnum 0))) = .ok 0 :=
  ⟨analyze_safe_cases.1 (.jstr "w") .jnull rfl,
   analyze_safe_cases.2.1 (.jstr "w") (JObj.ofList [("x", .jnum 1)]) rfl rfl rfl rfl,
   analyze_safe_cases.2.2 .jnull (.jstr "") rfl rfl⟩


instance : IsTotal FlaggedToken byBuyersDesc :=
  ⟨fun a b => (Nat.le_total b.total_buyers a.total_buyers).imp id id⟩

instance : IsTrans FlaggedToken byBuyersDesc :=
  ⟨fun _ _ _ hab hbc => Nat.le_trans hbc hab⟩

/-- C5: finalize returns exactly the resources whose holder-record count
reaches min_holders (a bucket below the threshold yields no entry, one at or
above it yields an entry carrying that count), the result is sorted by
holder count descending, ties keep the first-discovery (token_buyers
insertion) order of the unsorted flagged list, and the source default for
min_buyers is 2. -/
theorem finalize_threshold_order (tb : TokenBuyers)
    (tw : List (JVal × WalletData)) (m : ℕ) :
    (∀ t rs, (t, rs) ∈ tb →
       (m ≤ rs.length ↔
         ∃ f ∈ finalizeTokens tb tw m, f.token_address = t ∧ f.total_buyers = rs.length))
    ∧ (finalizeTokens tb tw m).Sorted byBuyersDesc
    ∧ (∀ k, (finalizeTokens tb tw m).filter (fun f => f.total_buyers == k)
        = (flaggedPreSort tb tw m).filter (fun f => f.total_buyers == k))
    ∧ scan_default_min_buyers = 2 := by
  refine ⟨?_, ?_, ?_, rfl⟩
  · intro t rs hmem
    constructor
    · intro hm
      refine ⟨mkFlagged tw t rs, ?_, rfl, rfl⟩
      exact (List.mem_insertionSort byBuyersDesc).mpr
        (List.mem_map.mpr ⟨(t, rs),
          List.mem_filter.mpr ⟨hmem, decide_eq_true hm⟩, rfl⟩)
    · rintro ⟨f, hf, hft, hfc⟩
      have hf2 : f ∈ flaggedPreSort tb tw m :=
        (List.mem_insertionSort byBuyersDesc).mp hf
      obtain ⟨⟨t2, rs2⟩, hmem2, rfl⟩ := List.mem_map.mp hf2
      have hcount : m ≤ rs2.length := of_decide_eq_true (List.mem_filter.mp hmem2).2
      have hlen : (mkFlagged tw t2 rs2).total_buyers = rs2.length := rfl
      rw [← hfc, hlen]
      exact hcount
  · exact List.sorted_insertionSort byBuyersDesc _
  · intro k
    unfold finalizeTokens
    have hall : ∀ a ∈ (flaggedPreSort tb tw m).filter (fun f => f.total_buyers == k),
        a.total_buyers = k := by
      intro a ha
      exact eq_of_beq (List.mem_filter.mp ha).2
    have hr : ((flaggedPreSort tb tw m).filter
        (fun f => f.total_buyers == k)).Pairwise byBuyersDesc := by
      apply List.pairwise_of_forall_mem_list
      intro a ha b hb
      unfold byBuyersDesc
      rw [hall a ha, hall b hb]
    have hsub : List.Sublist
        ((flaggedPreSort tb tw m).filter (fun f => f.total_buyers == k))
        ((flaggedPreSort tb tw m).insertionSort byBuyersDesc) :=
      List.sublist_insertionSort hr (List.filter_sublist _)
    have hsub2 : List.Sublist
        ((flaggedPreSort tb tw m).filter (fun f => f.total_buyers == k))
        (((flaggedPreSort tb tw m).insertionSort byBuyersDesc).filter
          (fun f => f.total_buyers == k)) := by
      have h2 := hsub.filter (fun f => f.total_buyers == k)
      rwa [List.filter_filter,
        show (fun (a : FlaggedToken) => (a.total_buyers == k) && (a.total_buyers == k))
           = (fun f => f.total_buyers == k) from funext fun x => Bool.and_self _] at h2
    have hperm : List.Perm
        (((flaggedPreSort tb tw m).insertionSort byBuyersDesc).filter
          (fun f => f.total_buyers == k))
        ((flaggedPreSort tb tw m).filter (fun f => f.total_buyers == k)) :=
      (List.perm_insertionSort byBuyersDesc (flaggedPreSort tb tw m)).filter _
    exact (hsub2.eq_of_length hperm.length_eq.symm).symm


/-- Buckets with holder counts 1, 2, 3 and 2, in discovery order. -/
def tbS : TokenBuyers :=
  [(.jstr "A", [rbW]), (.jstr "B", [rbW, rbW]),
   (.jstr "C", [rbW, rbW, rbW]), (.jstr "D", [rbW, rbW])]

theorem finalize_threshold_order_witness :
    ((.jstr "B", [rbW, rbW]) ∈ tbS ∧ 2 ≤ ([rbW, rbW] : List BuyerRecord).length)
    ∧ (∃ f ∈ finalizeTokens tbS [] 2,
        f.token_address = .jstr "B"
        ∧ f.total_buyers = ([rbW, rbW] : List BuyerRecord).length)
    ∧ (finalizeTokens tbS [] 2).Sorted byBuyersDesc
    ∧ (finalizeTokens tbS [] 2).filter (fun f => f.total_buyers == 2)
        = (flaggedPreSort tbS [] 2).filter (fun f => f.total_buyers == 2) :=
  ⟨⟨List.Mem.tail _ (List.Mem.head _), by decide⟩,
   ((finalize_threshold_order tbS [] 2).1 (.jstr "B") [rbW, rbW]
      (List.Mem.tail _ (List.Mem.head _))).mp (by decide),
   (finalize_threshold_order tbS [] 2).2.1,
   (finalize_threshold_order tbS [] 2).2.2.1 2⟩


theorem scanLoop_append (fetch : JVal → JVal) (l1 l2 : List JVal) :
    ∀ st, scanLoop fetch st (l1 ++ l2)
      = match scanLoop fetch st l1 with
        | .ok st1 => scanLoop fetch st1 l2
        | .error e => .error e := by
  induction l1 with
  | nil => intro st; rfl
  | cons x xs ih =>
    intro st
    show (match scanStep fetch st x with
      | Except.error e => Except.error e
      | Except.ok st2 => scanLoop fetch st2 (xs ++ l2))
      = match (match scanStep fetch st x with
          | Except.error e => Except.error e
          | Except.ok st2 => scanLoop fetch st2 xs) with
        | Except.ok st1 => scanLoop fetch st1 l2
        | Except.error e => Except.error e
    cases scanStep fetch st x with
    | error e => rfl
    | ok st2 => exact ih st2

theorem scanLoop_cons_ok {fetch : JVal → JVal} {st stF : TrackerState}
    {x : JVal} {l : List JVal} (h : scanLoop fetch st (x :: l) = .ok stF) :
    ∃ st1, scanStep fetch st x = .ok st1 ∧ scanLoop fetch st1 l = .ok stF := by
  revert h
  show (match scanStep fetch st x with
    | Except.error e => Except.error e
    | Except.ok st2 => scanLoop fetch st2 l) = Except.ok stF → _
  cases scanStep fetch st x with
  | error e => intro h; exact absurd h (by simp)
  | ok st2 => intro h; exact ⟨st2, rfl, h⟩

theorem scanLoop_ok_split {fetch : JVal → JVal} {st stF : TrackerState}
    {l1 l2 : List JVal} (h : scanLoop fetch st (l1 ++ l2) = .ok stF) :
    ∃ st1, scanLoop fetch st l1 = .ok st1 ∧ scanLoop fetch st1 l2 = .ok stF := by
  rw [scanLoop_append] at h
  revert h
  cases scanLoop fetch st l1 with
  | error e => intro h; exact absurd h (by simp)
  | ok st1 => intro h; exact ⟨st1, rfl, h⟩

theorem mem_twInsert_self : ∀ (tw : List (JVal × WalletData)) (w : JVal) (d : WalletData),
    ∃ d2, (w, d2) ∈ twInsert tw w d := by
  intro tw w d
  induction tw with
  | nil => exact ⟨d, List.Mem.head _⟩
  | cons p rest ih =>
    unfold twInsert
    by_cases h : JVal.beq p.1 w
    · rw [if_pos h]
      exact ⟨d, JVal.eq_of_beq h ▸ List.Mem.head _⟩
    · rw [if_neg h]
      obtain ⟨d2, hd2⟩ := ih
      exact ⟨d2, List.Mem.tail _ hd2⟩

theorem mem_twInsert_mono {tw : List (JVal × WalletData)} {w0 : JVal}
    (h : ∃ d0, (w0, d0) ∈ tw) (w : JVal) (d : WalletData) :
    ∃ d2, (w0, d2) ∈ twInsert tw w d := by
  induction tw with
  | nil => obtain ⟨d0, hd0⟩ := h; exact absurd hd0 (List.not_mem_nil _)
  | cons p rest ih =>
    obtain ⟨d0, hd0⟩ := h
    unfold twInsert
    by_cases hb : JVal.beq p.1 w
    · rw [if_pos hb]
      rcases List.mem_cons.mp hd0 with he | ht
      · exact ⟨d, by rw [show p.1 = w0 from congrArg Prod.fst he.symm]; exact List.Mem.head _⟩
      · exact ⟨d0, List.Mem.tail _ ht⟩
    · rw [if_neg hb]
      rcases List.mem_cons.mp hd0 with he | ht
      · exact ⟨p.2, by rw [show w0 = p.1 from congrArg Prod.fst he]; exact List.Mem.head _⟩
      · obtain ⟨d2, hd2⟩ := ih ⟨d0, ht⟩
        exact ⟨d2, List.Mem.tail _ hd2⟩


theorem scanStep_tracked_mono {fetch : JVal → JVal} {st st2 : TrackerState}
    {t : JVal} (h : scanStep fetch st t = .ok st2) {w0 : JVal}
    (hm : ∃ d, (w0, d) ∈ st.tracked_wallets) :
    ∃ d, (w0, d) ∈ st2.tracked_wallets := by
  unfold scanStep at h
  cases hrw : resolveWallet t with
  | error e => rw [hrw] at h; exact absurd h (by simp)
  | ok wallet =>
    rw [hrw] at h
    simp only [] at h
    split at h
    · obtain rfl := Except.ok.inj h
      exact hm
    · split at h
      · obtain rfl := Except.ok.inj h
        exact hm
      · split at h
        · obtain rfl := Except.ok.inj h
          exact mem_twInsert_mono hm wallet _
        · obtain rfl := Except.ok.inj h
          exact hm

theorem scanLoop_tracked_mono {fetch : JVal → JVal} {l : List JVal} :
    ∀ {st stF : TrackerState}, scanLoop fetch st l = .ok stF → ∀ {w0 : JVal},
      (∃ d, (w0, d) ∈ st.tracked_wallets) → ∃ d, (w0, d) ∈ stF.tracked_wallets := by
  induction l with
  | nil =>
    intro st stF h w0 hm
    obtain rfl := Except.ok.inj h
    exact hm
  | cons x xs ih =>
    intro st stF h w0 hm
    obtain ⟨st1, hstep, hrest⟩ := scanLoop_cons_ok h
    exact ih hrest (scanStep_tracked_mono hstep hm)

theorem scanStep_fail {fetch : JVal → JVal} {t w : JVal} {msg : String}
    (hw : resolveWallet t = .ok w) (hwt : truthy w = true)
    (hfail : (analyze_wallet_trades w (fetch w)).2 = .error msg)
    (st : TrackerState) :
    scanStep fetch st t = .ok { st with
      token_buyers := appendEmits st.token_buyers (analyze_wallet_trades w (fetch w)).1 } := by
  unfold scanStep
  rw [hw]
  simp [hwt, hfail]

theorem scanStep_active {fetch : JVal → JVal} {u w2 : JVal} {d : WalletData}
    {st st2 : TrackerState} (hru : resolveWallet u = .ok w2)
    (hw2t : truthy w2 = true)
    (hok : (analyze_wallet_trades w2 (fetch w2)).2 = .ok d)
    (hact : d.status = "active") (h : scanStep fetch st u = .ok st2) :
    ∃ d2, (w2, d2) ∈ st2.tracked_wallets := by
  unfold scanStep at h
  rw [hru] at h
  simp only [] at h
  simp only [hw2t, Bool.true_eq_false, if_false, hok, hact] at h
  obtain rfl := Except.ok.inj h
  exact mem_twInsert_self st.tracked_wallets w2 d


/-- C6: one subject's failing fetch/normalize never aborts the batch: when a
trader resolves to a truthy wallet whose analysis raises, the loop continues
into the remaining traders with only the token_buyers appends of the failed
call added (the wallet is skipped, the tracked store untouched); and in any
completed run, every subsequent trader that resolves and analyzes to an
active wallet ends up in the tracked-wallet store of the final state. -/
theorem scan_failure_containment (fetch : JVal → JVal) (st0 : TrackerState)
    (pre post : List JVal) (t w : JVal) (msg : String)
    (hw : resolveWallet t = .ok w) (hwt : truthy w = true)
    (hfail : (analyze_wallet_trades w (fetch w)).2 = .error msg) :
    (∀ st1, scanLoop fetch st0 pre = .ok st1 →
        scanLoop fetch st0 (pre ++ t :: post)
          = scanLoop fetch { st1 with
              token_buyers :=
                appendEmits st1.token_buyers (analyze_wallet_trades w (fetch w)).1 } post)
    ∧ (∀ stF, scanLoop fetch st0 (pre ++ t :: post) = .ok stF →
        ∀ u ∈ post, ∀ w2 d, resolveWallet u = .ok w2 → truthy w2 = true →
          (analyze_wallet_trades w2 (fetch w2)).2 = .ok d → d.status = "active" →
          ∃ d2, (w2, d2) ∈ stF.tracked_wallets) := by
  constructor
  · intro st1 h1
    rw [scanLoop_append, h1]
    show (match scanStep fetch st1 t with
      | Except.error e => Except.error e
      | Except.ok st2 => scanLoop fetch st2 post) = _
    rw [scanStep_fail hw hwt hfail st1]
  · intro stF hF u hu w2 d hru hw2t hok hact
    obtain ⟨p1, p2, rfl⟩ := List.append_of_mem hu
    obtain ⟨s1, hs1, hrest⟩ := scanLoop_ok_split hF
    obtain ⟨s2, hstept, hrest2⟩ := scanLoop_cons_ok hrest
    obtain ⟨s3, hs3, hrest3⟩ := scanLoop_ok_split hrest2
    obtain ⟨s4, hstepu, hrest4⟩ := scanLoop_cons_ok hrest3
    exact scanLoop_tracked_mono hrest4 (scanStep_active hru hw2t hok hact hstepu)

/-- A trader whose wallet's payload raises during analysis. -/
def traderBad : JVal := .jobj (JObj.ofList [("wallet", .jstr "bad")])
def traderW2 : JVal := .jobj (JObj.ofList [("wallet", .jstr "w2")])
def fetchC6 : JVal → JVal := fun w =>
  if JVal.beq w (.jstr "bad") then .jarr (JArr.ofList [.jnum 1]) else payloadGoodOnly
def posW2 : Position :=
  ⟨.jstr "T", .jstr "UNKNOWN", .jstr "Unknown", "holding", 3,
   some 0, some 0, none, none, 0, some 0, none⟩
def dataW2 : WalletData := ⟨.jstr "w2", "active", 1, 1, 0, [posW2]⟩
def stFC6 : TrackerState :=
  ⟨[(.jstr "w2", dataW2)], [(.jstr "T", [⟨.jstr "w2", "holding", 0, 0, 3⟩])], []⟩

theorem scan_failure_containment_witness :
    resolveWallet traderBad = .ok (.jstr "bad")
    ∧ truthy (.jstr "bad") = true
    ∧ (analyze_wallet_trades (.jstr "bad") (fetchC6 (.jstr "bad"))).2
        = .error "AttributeError"
    ∧ scanLoop fetchC6 ⟨[], [], []⟩ ([] ++ traderBad :: [traderW2]) = .ok stFC6
    ∧ ∃ d2, (.jstr "w2", d2) ∈ stFC6.tracked_wallets :=
  ⟨rfl, rfl, rfl, rfl,
   (scan_failure_containment fetchC6 ⟨[], [], []⟩ [] [traderW2] traderBad
      (.jstr "bad") "AttributeError" rfl rfl rfl).2 stFC6 rfl traderW2
      (List.Mem.head _) (.jstr "w2") dataW2 rfl rfl rfl rfl⟩

end Solscanner
